import Mathlib

/-!
Verification of the manifest-driven bulk page reader (src/8192.c).

The program opens `./trace_map.csv`, and for 400 outer iterations reads a
(folder, file_format) token pair with `fscanf("%s %s", ...)`, then scans page
files `./<folder>/<file_format>_<iter>` for iter = 1, 2, ... until the first
`fopen` failure.  On each successful open it reads up to 8192 bytes with
`fscanf(file, "%8192c", buf)` into a freshly `malloc`ed buffer and prints the
path and `buf[3]`.

Modelling choices (each annotated at its definition):
* C strings are `List Char`; file contents are `List Nat` (bytes).
* The filesystem is a finite association list from filename to contents;
  `fopen` for reading succeeds exactly when the name is present.
* `malloc`ed memory is modelled as zero-initialised.  The source `strcat`s
  into a fresh `malloc(100)` buffer and indexes fresh `malloc(8192)` memory
  beyond what was read; with zero-initialised allocations those reads are the
  deterministic behaviour the spec was written against.
* The unbounded `while (keep_reading)` loop is embedded with a fuel
  parameter; `fs.length + 1` fuel is always sufficient because the probed
  filenames of one record are pairwise distinct (`hits_le_length` below), so
  the loop meets a missing file after at most `fs.length` hits.
-/

/-- C strings (`char*` contents up to the terminator) are lists of chars. -/
abbrev CStr := List Char

/-- A file byte. -/
abbrev Byte := Nat

/-- The filesystem visible to the program: an association of filenames to
file contents.  `fopen(name, "r")` succeeds iff `name` has an entry. -/
abbrev FS := List (CStr × List Byte)

/-- Successful `fopen(name, "r")`: first entry whose key equals `name`. -/
def fsLookup (fs : FS) (name : CStr) : Option (List Byte) :=
  match fs with
  | [] => none
  | (k, v) :: rest => if k = name then some v else fsLookup rest name

/-- The ASCII digit character for a value `d < 10`, as produced by
`sprintf("%d", ...)`. -/
def digitChar (d : Nat) : Char := Char.ofNat (48 + d)

/-- Decimal rendering loop of `sprintf("%d", n)` for `n : Nat`: most
significant digit first, no zero padding.  Structurally fueled so that it
evaluates in the kernel; `decRepr` supplies sufficient fuel. -/
def decAux : Nat → Nat → List Char
  | 0, _ => []
  | fuel + 1, n =>
    if n < 10 then [digitChar n]
    else decAux fuel (n / 10) ++ [digitChar (n % 10)]

/-- `sprintf("%d", n)` (source line 30: `sprintf(iter_string, "%d", iter)`). -/
def decRepr (n : Nat) : List Char := decAux (n + 1) n

/-- Decimal parsing, used only to prove `decRepr` injective. -/
def decVal (l : List Char) : Nat :=
  l.foldl (fun a c => 10 * a + (c.toNat - 48)) 0

/-- The candidate page filename built by the `strcat` chain of source lines
23-31: `"./" + folder + "/" + file_format + "_" + decimal(iter)`.  The
source concatenates into a fresh `malloc(100)` buffer, modelled as starting
empty (zero-initialised allocation). -/
def fname (folder file_format : CStr) (iter : Nat) : CStr :=
  "./".toList ++ folder ++ "/".toList ++ file_format ++
    "_".toList ++ decRepr iter

/-- The contents of the 8192-byte `malloc`ed page buffer after
`fscanf(file, "%8192c", page_as_string)` (source lines 40-41): the first
8192 bytes of the file (all of it when shorter), the rest of the fresh
allocation still zero. -/
def pageBuffer (contents : List Byte) : List Byte :=
  contents.take 8192 ++ List.replicate (8192 - (contents.take 8192).length) 0

/-- One line of diagnostic output: either the probed path
(`printf("%s \n", fname)`, line 33) or the single page byte
(`printf("%c  \n", page_as_string[3])`, line 43). -/
inductive OutputItem where
  | path (name : CStr)
  | byte (b : Byte)
  deriving DecidableEq

/-- One successful page read: the opened filename and the resulting
8192-byte buffer. -/
structure PageReadEvent where
  name : CStr
  buffer : List Byte
  deriving DecidableEq

/-- What one record's `while (keep_reading)` loop produces: every probed
filename in order (each is printed, then `fopen`ed), the page-read events,
and the interleaved diagnostic output. -/
structure ScanResult where
  probes : List CStr
  events : List PageReadEvent
  output : List OutputItem
  deriving DecidableEq

/-- The `while (keep_reading)` loop of source lines 19-53, embedded with a
fuel bound on the number of probes.  Each iteration builds `fname`, prints
it, and `fopen`s it; on success it reads the page, prints byte 3 of the
buffer, increments `iter` and continues; on failure it stops. -/
def scanAux (fs : FS) (folder file_format : CStr) : Nat → Nat → ScanResult
  | 0, _ => ⟨[], [], []⟩
  | fuel + 1, iter =>
    let f := fname folder file_format iter
    match fsLookup fs f with
    | some contents =>
      let buf := pageBuffer contents
      let rest := scanAux fs folder file_format fuel (iter + 1)
      ⟨f :: rest.probes, ⟨f, buf⟩ :: rest.events,
        OutputItem.path f :: OutputItem.byte (buf.getD 3 0) :: rest.output⟩
    | none => ⟨[f], [], [OutputItem.path f]⟩

/-- One record's full scan, starting at `iter = 1` (source line 18).  Fuel
`fs.length + 1` always reaches the first missing file (`hits_le_length`). -/
def scanRecord (fs : FS) (folder file_format : CStr) : ScanResult :=
  scanAux fs folder file_format (fs.length + 1) 1

/-- `fscanf(trace_file, "%s %s", folder, file_format)` (source line 15) on
the manifest's remaining whitespace-separated tokens.  Both destination
buffers hold empty strings on entry (zeroed at the end of the previous outer
iteration, lines 56-59; zero-initialised allocation on the first), and a
conversion that finds no token leaves its buffer unchanged. -/
def readRecord : List CStr → CStr × CStr × List CStr
  | f :: s :: rest => (f, s, rest)
  | [t] => (t, [], [])
  | [] => ([], [], [])

/-- The outer `for (i = 0; i < 400; i++)` loop (source lines 13-60):
each iteration reads a token pair and scans that record's page sequence. -/
def runAux (fs : FS) : Nat → List CStr → List ScanResult
  | 0, _ => []
  | i + 1, toks =>
    let r := readRecord toks
    scanRecord fs r.1 r.2.1 :: runAux fs i r.2.2

/-- The whole run once the manifest opened: exactly 400 outer iterations. -/
def runProgram (fs : FS) (manifestTokens : List CStr) : List ScanResult :=
  runAux fs 400 manifestTokens

/-- The token stream of a manifest consisting of well-formed
(folder, stem) records. -/
def recordTokens : List (CStr × CStr) → List CStr
  | [] => []
  | (f, s) :: rs => f :: s :: recordTokens rs

/-- The records the Manifest Reader yields over `n` requests: one per
request while two tokens remain, none afterwards. -/
def readerYields : Nat → List CStr → List (CStr × CStr)
  | 0, _ => []
  | n + 1, f :: s :: rest => (f, s) :: readerYields n rest
  | _ + 1, _ => []

/-- Outcome of `main`.  `normal` carries the per-iteration scan results and
the exit status (reaching the end of `main` returns 0, C99 5.1.2.2.3).
`nullStreamRead` records that `fopen("./trace_map.csv", "r")` returned NULL
and the program, which never tests `trace_file` (source line 8), passed the
null stream straight to `fscanf` (line 15) — a call with no defined C
semantics, modelled as this explicit marker. -/
inductive RunOutcome where
  | normal (records : List ScanResult) (exitCode : Nat)
  | nullStreamRead
  deriving DecidableEq

/-- `main`: open the manifest (`some tokens` iff the open succeeds), then
run the 400-iteration loop. -/
def mainRun (manifest : Option (List CStr)) (fs : FS) : RunOutcome :=
  match manifest with
  | none => RunOutcome.nullStreamRead
  | some toks => RunOutcome.normal (runProgram fs toks) 0

/-- The local pointer variable `page_as_string` together with the 8192-byte
allocation it pointed at. -/
structure BufferVar where
  ptr : Nat
  mem : List Byte
  deriving DecidableEq

/-- One pass of the body of the clearing loop (source line 47):
`page_as_string = 0;` assigns the pointer variable, not the pointed-to
bytes. -/
def clearLoopStep (s : BufferVar) : BufferVar := { s with ptr := 0 }

/-- The loop `for (m = 0; m < 8192; m++) page_as_string = 0;`
(source lines 46-48), run `m` times. -/
def clearLoop : Nat → BufferVar → BufferVar
  | 0, s => s
  | m + 1, s => clearLoop m (clearLoopStep s)

/-- The full clearing loop as written: 8192 iterations. -/
def clearBuffer (s : BufferVar) : BufferVar := clearLoop 8192 s

/-- Projection selecting the probed-path lines of the diagnostic output. -/
def pathOf : OutputItem → Option CStr
  | OutputItem.path n => some n
  | OutputItem.byte _ => none

/-- Projection selecting the page-byte lines of the diagnostic output. -/
def byteOf : OutputItem → Option Byte
  | OutputItem.byte b => some b
  | OutputItem.path _ => none

/-- Sanity check on the embedded decimal rendering and filename builder:
counter value 12 renders as the two characters "12" and a full filename
assembles as in the source's probe of `./data/alpha_3`. -/
theorem fname_concrete : decRepr 12 = ['1', '2'] ∧
    fname "data".toList "alpha".toList 3 = "./data/alpha_3".toList :=
  ⟨rfl, rfl⟩

/-! ### Decimal rendering: correctness and injectivity -/

theorem digitChar_toNat {d : Nat} (h : d < 10) : (digitChar d).toNat = 48 + d := by
  interval_cases d <;> decide

theorem decVal_append_digit (xs : List Char) (c : Char) :
    decVal (xs ++ [c]) = 10 * decVal xs + (c.toNat - 48) := by
  simp [decVal]

theorem decAux_val : ∀ fuel n, n < fuel → decVal (decAux fuel n) = n := by
  intro fuel
  induction fuel with
  | zero => intro n h; omega
  | succ m ih =>
    intro n h
    by_cases hn : n < 10
    · simp [decAux, hn, decVal, digitChar_toNat hn]
    · have hdiv : n / 10 < m := by
        have h1 : n / 10 < n := Nat.div_lt_self (by omega) (by omega)
        omega
      have hmod : n % 10 < 10 := Nat.mod_lt n (by omega)
      simp only [decAux, if_neg hn]
      rw [decVal_append_digit, ih (n / 10) hdiv, digitChar_toNat hmod]
      omega

theorem decRepr_inj {a b : Nat} (h : decRepr a = decRepr b) : a = b := by
  have ha := decAux_val (a + 1) a (by omega)
  have hb := decAux_val (b + 1) b (by omega)
  rw [decRepr, decRepr] at h
  rw [h] at ha
  omega

/-! ### Filename distinctness and the fuel bound -/

theorem fname_iter_inj {folder file_format : CStr} {i j : Nat}
    (h : fname folder file_format i = fname folder file_format j) : i = j := by
  have e : ∀ n, fname folder file_format n =
      ("./".toList ++ folder ++ "/".toList ++ file_format ++ "_".toList) ++
        decRepr n := by
    intro n
    simp [fname]
  rw [e i, e j] at h
  exact decRepr_inj (List.append_cancel_left h)

theorem fsLookup_ne_none_mem {fs : FS} {n : CStr} (h : fsLookup fs n ≠ none) :
    n ∈ fs.map Prod.fst := by
  induction fs with
  | nil => simp [fsLookup] at h
  | cons p rest ih =>
    obtain ⟨k, v⟩ := p
    by_cases hk : k = n
    · simp [hk]
    · simp only [fsLookup, if_neg hk] at h
      simpa using Or.inr (ih h)

/-- Pigeonhole bound: if the first `k` probes of a record all hit an existing
file, then the filesystem holds at least `k` entries.  Hence the
`fs.length + 1` fuel of `scanRecord` always reaches the first miss. -/
theorem hits_le_length {fs : FS} {folder file_format : CStr} {k : Nat}
    (h : ∀ j, j < k → fsLookup fs (fname folder file_format (1 + j)) ≠ none) :
    k ≤ fs.length := by
  have hinj : Function.Injective (fun j => fname folder file_format (1 + j)) := by
    intro a b hab
    have := fname_iter_inj hab
    omega
  have hnd : ((List.range k).map (fun j => fname folder file_format (1 + j))).Nodup :=
    (List.nodup_range k).map hinj
  have hsub : ((List.range k).map (fun j => fname folder file_format (1 + j))) ⊆
      fs.map Prod.fst := by
    intro x hx
    obtain ⟨j, hj, rfl⟩ := List.mem_map.mp hx
    exact fsLookup_ne_none_mem (h j (List.mem_range.mp hj))
  have := (hnd.subperm hsub).length_le
  simpa using this

/-! ### Page buffer lemmas -/

theorem pageBuffer_length (c : List Byte) : (pageBuffer c).length = 8192 := by
  have : (c.take 8192).length = min 8192 c.length := List.length_take 8192 c
  simp only [pageBuffer, List.length_append, List.length_replicate, this]
  omega

/-- C4's content property: the read-in part of the buffer is byte-identical
to the first 8192 bytes of the file (to all of it when shorter). -/
theorem pageBuffer_take (c : List Byte) :
    (pageBuffer c).take (min 8192 c.length) = c.take 8192 := by
  have h : (c.take 8192).length = min 8192 c.length := List.length_take 8192 c
  rw [pageBuffer, ← h, List.take_left]

theorem pageBuffer_getD (c : List Byte) (h : 3 < c.length) :
    (pageBuffer c).getD 3 0 = c.getD 3 0 := by
  match c, h with
  | a :: b :: d :: e :: rest, _ =>
    show (List.take 8192 (a :: b :: d :: e :: rest) ++ _).getD 3 0 = _
    rw [show (8192 : Nat) = 4 + 8188 from rfl]
    simp [List.take_cons, List.getD]

/-! ### Unfolding equations for the while loop -/

theorem scanAux_succ_hit (fs : FS) (folder file_format : CStr) (fuel iter : Nat)
    (c : List Byte) (h : fsLookup fs (fname folder file_format iter) = some c) :
    scanAux fs folder file_format (fuel + 1) iter =
      ⟨fname folder file_format iter ::
          (scanAux fs folder file_format fuel (iter + 1)).probes,
        ⟨fname folder file_format iter, pageBuffer c⟩ ::
          (scanAux fs folder file_format fuel (iter + 1)).events,
        OutputItem.path (fname folder file_format iter) ::
          OutputItem.byte ((pageBuffer c).getD 3 0) ::
            (scanAux fs folder file_format fuel (iter + 1)).output⟩ := by
  simp [scanAux, h]

theorem scanAux_succ_miss (fs : FS) (folder file_format : CStr) (fuel iter : Nat)
    (h : fsLookup fs (fname folder file_format iter) = none) :
    scanAux fs folder file_format (fuel + 1) iter =
      ⟨[fname folder file_format iter], [],
        [OutputItem.path (fname folder file_format iter)]⟩ := by
  simp [scanAux, h]

/-- Behaviour of one record's scan when the files `iter .. iter+k-1` exist
and `iter+k` does not: `k` page events, `k+1` probes at consecutive
numbers. -/
theorem scanAux_run (fs : FS) (folder file_format : CStr) :
    ∀ k fuel iter, k < fuel →
    (∀ j, j < k → fsLookup fs (fname folder file_format (iter + j)) ≠ none) →
    fsLookup fs (fname folder file_format (iter + k)) = none →
    (scanAux fs folder file_format fuel iter).events.length = k ∧
    (scanAux fs folder file_format fuel iter).probes =
      (List.range' iter (k + 1)).map (fname folder file_format) := by
  intro k
  induction k with
  | zero =>
    intro fuel iter hf _ hmiss
    cases fuel with
    | zero => omega
    | succ m =>
      rw [Nat.add_zero] at hmiss
      rw [scanAux_succ_miss fs folder file_format m iter hmiss]
      exact ⟨rfl, rfl⟩
  | succ k ih =>
    intro fuel iter hf hhit hmiss
    cases fuel with
    | zero => omega
    | succ m =>
      have h0 : fsLookup fs (fname folder file_format iter) ≠ none := by
        have := hhit 0 (by omega)
        rwa [Nat.add_zero] at this
      obtain ⟨c, hc⟩ := Option.ne_none_iff_exists'.mp h0
      rw [scanAux_succ_hit fs folder file_format m iter c hc]
      have hhit' : ∀ j, j < k →
          fsLookup fs (fname folder file_format (iter + 1 + j)) ≠ none := by
        intro j hj
        have := hhit (j + 1) (by omega)
        rwa [show iter + (j + 1) = iter + 1 + j by omega] at this
      have hmiss' : fsLookup fs (fname folder file_format (iter + 1 + k)) = none := by
        rwa [show iter + (k + 1) = iter + 1 + k by omega] at hmiss
      obtain ⟨e1, e2⟩ := ih m (iter + 1) (by omega) hhit' hmiss'
      refine ⟨by simp [e1], ?_⟩
      simp only [e2]
      rfl

/-- Every probe of one record's scan carries the filename at the probe's
own counter value: the `i`-th probe (0-based) is `fname _ _ (iter + i)`. -/
theorem scanAux_probes_get (fs : FS) (folder file_format : CStr) :
    ∀ fuel iter i p,
      ((scanAux fs folder file_format fuel iter).probes)[i]? = some p →
      p = fname folder file_format (iter + i) := by
  intro fuel
  induction fuel with
  | zero =>
    intro iter i p h
    simp [scanAux] at h
  | succ m ih =>
    intro iter i p h
    cases hc : fsLookup fs (fname folder file_format iter) with
    | some c =>
      rw [scanAux_succ_hit fs folder file_format m iter c hc] at h
      cases i with
      | zero =>
        simp only [List.getElem?_cons_zero, Option.some.injEq] at h
        rw [← h, Nat.add_zero]
      | succ i =>
        simp only [List.getElem?_cons_succ] at h
        rw [ih (iter + 1) i p h]
        congr 1
        omega
    | none =>
      rw [scanAux_succ_miss fs folder file_format m iter hc] at h
      cases i with
      | zero =>
        simp only [List.getElem?_cons_zero, Option.some.injEq] at h
        rw [← h, Nat.add_zero]
      | succ i =>
        simp at h

/-- The probed-path lines of the diagnostic output are exactly the probed
filenames, in order (`printf("%s \n", fname)` happens for every probe,
including the final missing one). -/
theorem scanAux_output_paths (fs : FS) (folder file_format : CStr) :
    ∀ fuel iter,
      ((scanAux fs folder file_format fuel iter).output).filterMap pathOf =
        (scanAux fs folder file_format fuel iter).probes := by
  intro fuel
  induction fuel with
  | zero =>
    intro iter
    simp [scanAux]
  | succ m ih =>
    intro iter
    cases hc : fsLookup fs (fname folder file_format iter) with
    | some c =>
      rw [scanAux_succ_hit fs folder file_format m iter c hc]
      simp [List.filterMap_cons, pathOf, ih]
    | none =>
      rw [scanAux_succ_miss fs folder file_format m iter hc]
      simp [List.filterMap_cons, pathOf]

/-- The page-byte lines of the diagnostic output are exactly one line per
page event, in order, each reporting byte 3 of that event's buffer. -/
theorem scanAux_output_bytes (fs : FS) (folder file_format : CStr) :
    ∀ fuel iter,
      ((scanAux fs folder file_format fuel iter).output).filterMap byteOf =
        (scanAux fs folder file_format fuel iter).events.map
          (fun e => e.buffer.getD 3 0) := by
  intro fuel
  induction fuel with
  | zero =>
    intro iter
    simp [scanAux]
  | succ m ih =>
    intro iter
    cases hc : fsLookup fs (fname folder file_format iter) with
    | some c =>
      rw [scanAux_succ_hit fs folder file_format m iter c hc]
      simp [List.filterMap_cons, byteOf, ih]
    | none =>
      rw [scanAux_succ_miss fs folder file_format m iter hc]
      simp [List.filterMap_cons, byteOf]

/-- Every emitted page event comes from a successful open: the filesystem
holds its filename, and its buffer is exactly the 8192-byte read of that
file's contents. -/
theorem scanAux_events_mem (fs : FS) (folder file_format : CStr) :
    ∀ fuel iter e, e ∈ (scanAux fs folder file_format fuel iter).events →
      ∃ c, fsLookup fs e.name = some c ∧ e.buffer = pageBuffer c := by
  intro fuel
  induction fuel with
  | zero =>
    intro iter e h
    simp [scanAux] at h
  | succ m ih =>
    intro iter e h
    cases hc : fsLookup fs (fname folder file_format iter) with
    | some c =>
      rw [scanAux_succ_hit fs folder file_format m iter c hc] at h
      rcases List.mem_cons.mp h with h1 | h1
      · subst h1
        exact ⟨c, hc, rfl⟩
      · exact ih (iter + 1) e h1
    | none =>
      rw [scanAux_succ_miss fs folder file_format m iter hc] at h
      simp at h

/-! ### Record- and run-level lemmas -/

/-- A record whose first page file is missing: one probe, no events, one
diagnostic line. -/
theorem scanRecord_miss (fs : FS) (folder file_format : CStr)
    (h : fsLookup fs (fname folder file_format 1) = none) :
    scanRecord fs folder file_format =
      ⟨[fname folder file_format 1], [],
        [OutputItem.path (fname folder file_format 1)]⟩ :=
  scanAux_succ_miss fs folder file_format fs.length 1 h

/-- Whatever the filesystem holds, each record's first probe is at
counter value 1. -/
theorem scanRecord_first_probe (fs : FS) (folder file_format : CStr) :
    (scanRecord fs folder file_format).probes.head? =
      some (fname folder file_format 1) := by
  unfold scanRecord
  cases hc : fsLookup fs (fname folder file_format 1) with
  | some c =>
    rw [scanAux_succ_hit fs folder file_format fs.length 1 c hc]
    rfl
  | none =>
    rw [scanAux_succ_miss fs folder file_format fs.length 1 hc]
    rfl

/-- After the manifest's tokens run out, every remaining outer iteration
scans with both buffers holding the empty string. -/
theorem runAux_nil (fs : FS) : ∀ n, runAux fs n [] =
    List.replicate n (scanRecord fs [] []) := by
  intro n
  induction n with
  | zero => rfl
  | succ m ih =>
    simp only [runAux, readRecord, List.replicate]
    rw [ih]

/-- Shape of the whole outer loop on a manifest of well-formed records:
one scan per record in manifest order, then `n - r` scans with empty
buffers. -/
theorem runAux_recordTokens (fs : FS) : ∀ (rs : List (CStr × CStr)) n,
    rs.length ≤ n →
    runAux fs n (recordTokens rs) =
      rs.map (fun r => scanRecord fs r.1 r.2) ++
        List.replicate (n - rs.length) (scanRecord fs [] []) := by
  intro rs
  induction rs with
  | nil =>
    intro n h
    simp [recordTokens, runAux_nil]
  | cons p rest ih =>
    intro n h
    obtain ⟨f, s⟩ := p
    cases n with
    | zero => simp at h
    | succ m =>
      have hm : rest.length ≤ m := by
        simp at h
        omega
      simp only [recordTokens, runAux, readRecord]
      rw [ih m hm]
      simp [Nat.succ_sub_succ]

theorem runAux_length (fs : FS) : ∀ n toks, (runAux fs n toks).length = n := by
  intro n
  induction n with
  | zero => intro toks; rfl
  | succ m ih => intro toks; simp [runAux, ih]

/-- The Manifest Reader yields every well-formed record of the manifest, in
file order, when there are at most as many records as requests. -/
theorem readerYields_recordTokens : ∀ (rs : List (CStr × CStr)) n,
    rs.length ≤ n → readerYields n (recordTokens rs) = rs := by
  intro rs
  induction rs with
  | nil =>
    intro n h
    cases n with
    | zero => rfl
    | succ m => rfl
  | cons p rest ih =>
    intro n h
    obtain ⟨f, s⟩ := p
    cases n with
    | zero => simp at h
    | succ m =>
      have hm : rest.length ≤ m := by
        simp at h
        omega
      simp only [recordTokens, readerYields]
      rw [ih m hm]

/-- The clearing loop of source lines 46-48 never writes the pointed-to
bytes: it only overwrites the pointer variable. -/
theorem clearLoop_mem : ∀ m s, (clearLoop m s).mem = s.mem := by
  intro m
  induction m with
  | zero => intro s; rfl
  | succ k ih =>
    intro s
    rw [clearLoop, ih]
    rfl

/-! ### Claim theorems -/

/-- C1: the claim says a failed open of `./trace_map.csv` aborts the run
with ManifestUnavailable and a distinct non-zero exit status before any
probe.  The code never tests `fopen`'s result: on a missing manifest it
reaches the `fscanf` on the null stream, so the model evaluates to the
`nullStreamRead` marker — no defined abort, no defined exit status. -/
theorem c1_missing_manifest : mainRun none [] = RunOutcome.nullStreamRead :=
  rfl

set_option maxRecDepth 8000 in
/-- C2 counterexample: a manifest holding one well-formed record, 399 short
of the 400-iteration cap, on an empty filesystem.  The claim says the
remaining outer iterations are skipped entirely with no page probed; in
fact the second iteration already probes the page filename ".//_1". -/
theorem c2_not_skipped : ((runProgram []
    (recordTokens [("data".toList, "alpha".toList)]))[1]?).map
      (fun r => r.probes) = some [".//_1".toList] := by
  decide

/-- C2 (amended): for every manifest of at most 400 well-formed records the
Manifest Reader yields exactly min(400, available) records in file order;
but the outer iterations left over after end-of-input are not skipped —
each still runs the scanner with empty folder and stem buffers, so its
first probe is the filename ".//_1". -/
theorem c2_reader_and_trailing (fs : FS) (records : List (CStr × CStr))
    (h : records.length ≤ 400) :
    readerYields 400 (recordTokens records) = records ∧
    (∀ i, records.length ≤ i → i < 400 →
      ((runProgram fs (recordTokens records))[i]?).map
          (fun r => r.probes.head?) = some (some (fname [] [] 1))) ∧
    fname [] [] 1 = ".//_1".toList := by
  refine ⟨readerYields_recordTokens records 400 h, ?_, rfl⟩
  intro i hi hi400
  rw [runProgram, runAux_recordTokens fs records 400 h]
  rw [List.getElem?_append_right (by simpa using hi)]
  have hlt : i - records.length < 400 - records.length := by omega
  simp [List.getElem?_replicate, List.length_map, hlt, scanRecord_first_probe]

/-- C3: for a record whose directory holds page files numbered 1..k
contiguously with file k+1 absent, the Scanner emits exactly k
PageReadEvents and then stops after probing k+1 filenames at consecutive
numbers 1..k+1; files with non-matching numbers (for instance an existing
file k+2) are never reached, so gaps are not bridged. -/
theorem c3_contiguous_pages (fs : FS) (folder file_format : CStr) (k : Nat)
    (hhit : ∀ j, j < k → fsLookup fs (fname folder file_format (j + 1)) ≠ none)
    (hmiss : fsLookup fs (fname folder file_format (k + 1)) = none) :
    (scanRecord fs folder file_format).events.length = k ∧
    (scanRecord fs folder file_format).probes =
      (List.range' 1 (k + 1)).map (fname folder file_format) := by
  have hk : k ≤ fs.length := hits_le_length (fun j hj => by
    have := hhit j hj
    rwa [show j + 1 = 1 + j by omega] at this)
  unfold scanRecord
  exact scanAux_run fs folder file_format k (fs.length + 1) 1 (by omega)
    (fun j hj => by
      have := hhit j hj
      rwa [show j + 1 = 1 + j by omega] at this)
    (by rwa [show k + 1 = 1 + k by omega] at hmiss)

/-- C4: every emitted page event comes from a successfully-opened file, its
buffer holds exactly 8192 bytes, and the read-in part of the buffer is
byte-identical to the first 8192 bytes of the file — to the file's full
contents when it is shorter, the short read silently accepted and the page
still counted as an event. -/
theorem c4_buffer_contents (fs : FS) (folder file_format : CStr) :
    ∀ e ∈ (scanRecord fs folder file_format).events,
      ∃ c, fsLookup fs e.name = some c ∧
        e.buffer.length = 8192 ∧
        e.buffer.take (min 8192 c.length) = c.take 8192 := by
  intro e he
  obtain ⟨c, hc, hb⟩ :=
    scanAux_events_mem fs folder file_format (fs.length + 1) 1 e he
  refine ⟨c, hc, ?_, ?_⟩
  · rw [hb]
    exact pageBuffer_length c
  · rw [hb]
    exact pageBuffer_take c

/-- C5: the claim says the 8192-byte PageBuffer's backing storage is reset
to all-zero between page reads.  The source's loop (lines 46-48) instead
assigns 0 to the pointer variable 8192 times and never touches the bytes:
after a page whose first byte was 65, running the loop leaves the storage
unchanged, with the non-zero byte still observable. -/
theorem c5_clear_loop :
    (clearBuffer ⟨1, 65 :: List.replicate 8191 0⟩).mem =
      65 :: List.replicate 8191 0 ∧
    (clearBuffer ⟨1, 65 :: List.replicate 8191 0⟩).mem.getD 0 0 = 65 := by
  refine ⟨clearLoop_mem 8192 _, ?_⟩
  rw [clearBuffer, clearLoop_mem 8192]
  rfl

/-- C6: the i-th filename a record's scan probes (0-based i) is exactly
"./" ++ folder ++ "/" ++ stem ++ "_" ++ decimal(i+1): the counter starts at
1 for each record, increases by 1 per probe, and is rendered in base 10
with no zero padding, the name being rebuilt fresh for every probe. -/
theorem c6_filename_form (fs : FS) (folder file_format : CStr) (i : Nat)
    (h : i < (scanRecord fs folder file_format).probes.length) :
    (scanRecord fs folder file_format).probes[i]? =
      some ("./".toList ++ folder ++ "/".toList ++ file_format ++
        "_".toList ++ decRepr (i + 1)) := by
  obtain ⟨p, hp⟩ : ∃ p, (scanRecord fs folder file_format).probes[i]? = some p :=
    ⟨_, List.getElem?_eq_getElem h⟩
  rw [hp]
  have := scanAux_probes_get fs folder file_format (fs.length + 1) 1 i p hp
  rw [this, show 1 + i = i + 1 by omega]
  rfl

/-- C7: every probed filename — the final absent one included — has its
constructed path reported on diagnostic output, in probe order; every
successfully-read page contributes exactly one reported byte, taken from
the fixed offset 3 of its buffer, and that byte equals the byte at the same
offset of the source page file whenever the file extends that far. -/
theorem c7_diagnostic_output (fs : FS) (folder file_format : CStr) :
    ((scanRecord fs folder file_format).output).filterMap pathOf =
      (scanRecord fs folder file_format).probes ∧
    ((scanRecord fs folder file_format).output).filterMap byteOf =
      (scanRecord fs folder file_format).events.map
        (fun e => e.buffer.getD 3 0) ∧
    (∀ e ∈ (scanRecord fs folder file_format).events, ∀ c,
      fsLookup fs e.name = some c → 3 < c.length →
        e.buffer.getD 3 0 = c.getD 3 0) := by
  refine ⟨scanAux_output_paths fs folder file_format (fs.length + 1) 1,
    scanAux_output_bytes fs folder file_format (fs.length + 1) 1, ?_⟩
  intro e he c hc hlen
  obtain ⟨c', hc', hb⟩ :=
    scanAux_events_mem fs folder file_format (fs.length + 1) 1 e he
  rw [hc] at hc'
  have hcc := Option.some.inj hc'
  rw [hb, ← hcc]
  exact pageBuffer_getD c hlen

/-- C8: a record whose page file number 1 is absent produces zero events
after a single probe (the Scanner returns immediately); a missing page
sequence never stops the outer loop, which always performs its 400
iterations; and whenever the manifest opened, the run ends normally with
exit status 0, regardless of how many pages were found. -/
theorem c8_local_failures (fs : FS) (folder file_format : CStr)
    (toks : List CStr)
    (h : fsLookup fs (fname folder file_format 1) = none) :
    (scanRecord fs folder file_format).events = [] ∧
    (scanRecord fs folder file_format).probes = [fname folder file_format 1] ∧
    (runProgram fs toks).length = 400 ∧
    mainRun (some toks) fs = RunOutcome.normal (runProgram fs toks) 0 := by
  rw [scanRecord_miss fs folder file_format h]
  exact ⟨rfl, rfl, runAux_length fs 400 toks, rfl⟩

/-- C9: when the manifest is exhausted after r complete records with
1 ≤ r < 400, the remaining 400 − r outer iterations still execute: the
folder and stem buffers, zeroed after each record and left unchanged by the
failed read at end-of-input, are empty, so each remaining iteration
constructs, reports, and probes exactly the single filename ".//_1"
(absent by hypothesis) and emits nothing. -/
theorem c9_trailing_iterations (fs : FS) (records : List (CStr × CStr))
    (r : Nat) (h0 : records.length = r) (h1 : 1 ≤ r) (h2 : r < 400)
    (h3 : fsLookup fs (".//_1".toList) = none) :
    ∀ i, r ≤ i → i < 400 →
      (runProgram fs (recordTokens records))[i]? =
        some ⟨[".//_1".toList], [],
          [OutputItem.path (".//_1".toList)]⟩ := by
  intro i hi hi400
  subst h0
  rw [runProgram, runAux_recordTokens fs records 400 (by omega)]
  rw [List.getElem?_append_right (by simpa using hi)]
  have hlt : i - records.length < 400 - records.length := by omega
  have hname : fname [] [] 1 = ".//_1".toList := rfl
  rw [scanRecord_miss fs [] [] (by rw [hname]; exact h3)]
  simp [List.getElem?_replicate, List.length_map, hlt, hname]

/-- C10: the fixed diagnostic offset is exactly index 3: the i-th reported
page byte of a record's output is the fourth byte (offset 3) of the i-th
successfully-read page's file, whenever that file holds at least 4 bytes. -/
theorem c10_offset_three (fs : FS) (folder file_format : CStr) (i : Nat)
    (e : PageReadEvent) (c : List Byte)
    (he : (scanRecord fs folder file_format).events[i]? = some e)
    (hc : fsLookup fs e.name = some c) (hlen : 4 ≤ c.length) :
    (((scanRecord fs folder file_format).output).filterMap byteOf)[i]? =
      some (c.getD 3 0) := by
  unfold scanRecord at he ⊢
  have hmem : e ∈ (scanAux fs folder file_format (fs.length + 1) 1).events :=
    List.getElem?_mem he
  obtain ⟨c', hc', hb⟩ :=
    scanAux_events_mem fs folder file_format (fs.length + 1) 1 e hmem
  rw [hc] at hc'
  have hcc := Option.some.inj hc'
  rw [scanAux_output_bytes fs folder file_format (fs.length + 1) 1,
    List.getElem?_map, he]
  simp only [Option.map_some']
  rw [hb, ← hcc, pageBuffer_getD c (by omega)]

/-! ### Witnesses: each claim theorem applied at a concrete input -/

/-- Closed form of a scan over a one-file filesystem whose file is the
record's page number 1: one event, two probes.  Stated so that concrete
instances follow without normalising the 8192-byte buffer term. -/
theorem scanRecord_single (name : CStr) (c : List Byte)
    (folder file_format : CStr)
    (h1 : fname folder file_format 1 = name)
    (h2 : name ≠ fname folder file_format 2) :
    scanRecord [(name, c)] folder file_format =
      ⟨[name, fname folder file_format 2],
        [⟨name, pageBuffer c⟩],
        [OutputItem.path name, OutputItem.byte ((pageBuffer c).getD 3 0),
          OutputItem.path (fname folder file_format 2)]⟩ := by
  have hc : fsLookup [(name, c)] (fname folder file_format 1) = some c := by
    simp only [fsLookup]
    rw [if_pos h1.symm]
  have hm : fsLookup [(name, c)] (fname folder file_format (1 + 1)) = none := by
    simp only [fsLookup]
    rw [if_neg]
    intro hh
    exact h2 hh
  have step1 := scanAux_succ_hit [(name, c)] folder file_format 1 1 c hc
  have step2 := scanAux_succ_miss [(name, c)] folder file_format 0 (1 + 1) hm
  show scanAux [(name, c)] folder file_format (1 + 1) 1 = _
  rw [step1, step2, h1]

/-- Witness for C2 (amended): a one-record manifest on an empty filesystem;
iteration 7 still probes, its first probe being ".//_1". -/
theorem c2_reader_and_trailing_witness :
    ([(("data".toList : CStr), ("alpha".toList : CStr))].length ≤ 400) ∧
    ((runProgram [] (recordTokens [("data".toList, "alpha".toList)]))[7]?).map
      (fun r => r.probes.head?) = some (some (fname [] [] 1)) :=
  ⟨by decide,
    (c2_reader_and_trailing [] [("data".toList, "alpha".toList)]
      (by decide)).2.1 7 (by decide) (by decide)⟩

/-- Witness for C3: the spec's gap scenario — files numbered 1, 2 and 4
exist, 3 is missing — yields exactly 2 events and probes 1, 2, 3. -/
theorem c3_contiguous_pages_witness :
    (∀ j, j < 2 → fsLookup
        [("./data/alpha_1".toList, [10, 20, 30, 40]),
          ("./data/alpha_2".toList, [1, 2, 3, 4, 5]),
          ("./data/alpha_4".toList, [9, 9, 9, 9])]
        (fname "data".toList "alpha".toList (j + 1)) ≠ none) ∧
    fsLookup
        [("./data/alpha_1".toList, [10, 20, 30, 40]),
          ("./data/alpha_2".toList, [1, 2, 3, 4, 5]),
          ("./data/alpha_4".toList, [9, 9, 9, 9])]
        (fname "data".toList "alpha".toList (2 + 1)) = none ∧
    ((scanRecord
        [("./data/alpha_1".toList, [10, 20, 30, 40]),
          ("./data/alpha_2".toList, [1, 2, 3, 4, 5]),
          ("./data/alpha_4".toList, [9, 9, 9, 9])]
        "data".toList "alpha".toList).events.length = 2 ∧
      (scanRecord
        [("./data/alpha_1".toList, [10, 20, 30, 40]),
          ("./data/alpha_2".toList, [1, 2, 3, 4, 5]),
          ("./data/alpha_4".toList, [9, 9, 9, 9])]
        "data".toList "alpha".toList).probes =
        (List.range' 1 (2 + 1)).map (fname "data".toList "alpha".toList)) :=
  ⟨by decide, by decide,
    c3_contiguous_pages _ "data".toList "alpha".toList 2
      (by decide) (by decide)⟩

/-- Witness for C4: a single 5-byte page file; its event's buffer is 8192
bytes whose read-in prefix equals the file's full contents. -/
theorem c4_buffer_contents_witness :
    (⟨"./d/a_1".toList, pageBuffer [7, 8, 9, 6, 5]⟩ : PageReadEvent) ∈
      (scanRecord [("./d/a_1".toList, [7, 8, 9, 6, 5])]
        "d".toList "a".toList).events ∧
    ∃ c, fsLookup [("./d/a_1".toList, [7, 8, 9, 6, 5])]
        (⟨"./d/a_1".toList, pageBuffer [7, 8, 9, 6, 5]⟩ : PageReadEvent).name =
          some c ∧
      (⟨"./d/a_1".toList, pageBuffer [7, 8, 9, 6, 5]⟩ :
          PageReadEvent).buffer.length = 8192 ∧
      (⟨"./d/a_1".toList, pageBuffer [7, 8, 9, 6, 5]⟩ :
          PageReadEvent).buffer.take (min 8192 c.length) = c.take 8192 :=
  ⟨by
    rw [scanRecord_single "./d/a_1".toList [7, 8, 9, 6, 5]
      "d".toList "a".toList (by decide) (by decide)]
    exact List.mem_singleton.mpr rfl,
    c4_buffer_contents [("./d/a_1".toList, [7, 8, 9, 6, 5])]
      "d".toList "a".toList
      ⟨"./d/a_1".toList, pageBuffer [7, 8, 9, 6, 5]⟩
      (by
        rw [scanRecord_single "./d/a_1".toList [7, 8, 9, 6, 5]
          "d".toList "a".toList (by decide) (by decide)]
        exact List.mem_singleton.mpr rfl)⟩

/-- Witness for C6: with an empty filesystem the single probe of record
(folder "q", stem "z") is "./q/z_1", built from counter value 1. -/
theorem c6_filename_form_witness :
    0 < (scanRecord [] "q".toList "z".toList).probes.length ∧
    (scanRecord [] "q".toList "z".toList).probes[0]? =
      some ("./".toList ++ "q".toList ++ "/".toList ++ "z".toList ++
        "_".toList ++ decRepr (0 + 1)) :=
  ⟨by decide, c6_filename_form [] "q".toList "z".toList 0 (by decide)⟩

/-- Witness for C7: a 6-byte page file; the event's reported byte (buffer
offset 3) equals the file's byte at offset 3. -/
theorem c7_diagnostic_output_witness :
    (⟨"./v/w_1".toList, pageBuffer [3, 1, 4, 1, 5, 9]⟩ : PageReadEvent) ∈
      (scanRecord [("./v/w_1".toList, [3, 1, 4, 1, 5, 9])]
        "v".toList "w".toList).events ∧
    fsLookup [("./v/w_1".toList, [3, 1, 4, 1, 5, 9])]
      (⟨"./v/w_1".toList, pageBuffer [3, 1, 4, 1, 5, 9]⟩ :
        PageReadEvent).name = some [3, 1, 4, 1, 5, 9] ∧
    3 < ([3, 1, 4, 1, 5, 9] : List Byte).length ∧
    (⟨"./v/w_1".toList, pageBuffer [3, 1, 4, 1, 5, 9]⟩ :
      PageReadEvent).buffer.getD 3 0 = ([3, 1, 4, 1, 5, 9] : List Byte).getD 3 0 :=
  ⟨by
    rw [scanRecord_single "./v/w_1".toList [3, 1, 4, 1, 5, 9]
      "v".toList "w".toList (by decide) (by decide)]
    exact List.mem_singleton.mpr rfl,
    by decide, by decide,
    (c7_diagnostic_output [("./v/w_1".toList, [3, 1, 4, 1, 5, 9])]
        "v".toList "w".toList).2.2
      ⟨"./v/w_1".toList, pageBuffer [3, 1, 4, 1, 5, 9]⟩
      (by
        rw [scanRecord_single "./v/w_1".toList [3, 1, 4, 1, 5, 9]
          "v".toList "w".toList (by decide) (by decide)]
        exact List.mem_singleton.mpr rfl)
      [3, 1, 4, 1, 5, 9] (by decide) (by decide)⟩

/-- Witness for C8: the spec's second scenario record — "./other/beta_1"
absent — yields zero events, one probe, all 400 iterations, exit 0. -/
theorem c8_local_failures_witness :
    fsLookup [] (fname "other".toList "beta".toList 1) = none ∧
    ((scanRecord [] "other".toList "beta".toList).events = [] ∧
      (scanRecord [] "other".toList "beta".toList).probes =
        [fname "other".toList "beta".toList 1] ∧
      (runProgram [] []).length = 400 ∧
      mainRun (some []) [] = RunOutcome.normal (runProgram [] []) 0) :=
  ⟨rfl, c8_local_failures [] "other".toList "beta".toList [] rfl⟩

/-- Witness for C9: one record then end-of-input; iteration 5 probes only
".//_1" and emits nothing. -/
theorem c9_trailing_iterations_witness :
    ([(("data".toList : CStr), ("alpha".toList : CStr))].length = 1) ∧
    (1 : Nat) ≤ 1 ∧ (1 : Nat) < 400 ∧
    fsLookup [] (".//_1".toList) = none ∧
    (runProgram [] (recordTokens [("data".toList, "alpha".toList)]))[5]? =
      some ⟨[".//_1".toList], [], [OutputItem.path (".//_1".toList)]⟩ :=
  ⟨rfl, le_refl 1, by decide, rfl,
    c9_trailing_iterations [] [("data".toList, "alpha".toList)] 1
      rfl (le_refl 1) (by decide) rfl 5 (by decide) (by decide)⟩

/-- Witness for C10: a 5-byte page file whose fourth byte is 44; the first
reported page byte is 44. -/
theorem c10_offset_three_witness :
    (scanRecord [("./m/n_1".toList, [11, 22, 33, 44, 55])]
        "m".toList "n".toList).events[0]? =
      some ⟨"./m/n_1".toList, pageBuffer [11, 22, 33, 44, 55]⟩ ∧
    fsLookup [("./m/n_1".toList, [11, 22, 33, 44, 55])]
      (⟨"./m/n_1".toList, pageBuffer [11, 22, 33, 44, 55]⟩ :
        PageReadEvent).name = some [11, 22, 33, 44, 55] ∧
    4 ≤ ([11, 22, 33, 44, 55] : List Byte).length ∧
    (((scanRecord [("./m/n_1".toList, [11, 22, 33, 44, 55])]
        "m".toList "n".toList).output).filterMap byteOf)[0]? =
      some (([11, 22, 33, 44, 55] : List Byte).getD 3 0) :=
  ⟨by
    rw [scanRecord_single "./m/n_1".toList [11, 22, 33, 44, 55]
      "m".toList "n".toList (by decide) (by decide)]
    rfl,
    by decide, by decide,
    c10_offset_three [("./m/n_1".toList, [11, 22, 33, 44, 55])]
      "m".toList "n".toList 0
      ⟨"./m/n_1".toList, pageBuffer [11, 22, 33, 44, 55]⟩
      [11, 22, 33, 44, 55]
      (by
        rw [scanRecord_single "./m/n_1".toList [11, 22, 33, 44, 55]
          "m".toList "n".toList (by decide) (by decide)]
        rfl)
      (by decide) (by decide)⟩
